import Mathlib

/-!
Shallow embedding of the rshttps static-file server (src/main.rs): the
cache store, the request handler, the response builders, the debounced
invalidation engine, and the startup thread structure. Byte sequences are
modelled as `List Nat` (one entry per byte), strings written to the wire
are converted through an explicit UTF-8 encoder, and the opaque MIME
classifier is a parameter.
-/

namespace RsHttps

/-- UTF-8 encoding of one character, as a list of byte values. -/
def charUtf8 (c : Char) : List Nat :=
  let n := c.toNat
  if n < 0x80 then [n]
  else if n < 0x800 then [0xC0 ||| (n >>> 6), 0x80 ||| (n &&& 0x3F)]
  else if n < 0x10000 then
    [0xE0 ||| (n >>> 12), 0x80 ||| ((n >>> 6) &&& 0x3F), 0x80 ||| (n &&& 0x3F)]
  else
    [0xF0 ||| (n >>> 18), 0x80 ||| ((n >>> 12) &&& 0x3F),
     0x80 ||| ((n >>> 6) &&& 0x3F), 0x80 ||| (n &&& 0x3F)]

/-- UTF-8 encoding of a string, as the list of its byte values (Rust
`str::as_bytes` / `String::len` count these bytes). -/
def utf8 (s : String) : List Nat :=
  (s.data.map charUtf8).flatten

/-- main.rs:171-191 `respond_with_file`: the exact bytes written for a 200
response. The source builds `content_type_header` as the empty string when
the MIME type is `application/octet-stream`, and otherwise as
`format!("Content-Type: \x7b\x7d\r\n\r\n", mime_type)`; the header is
`format!("HTTP/1.1 200 OK\r\nContent-Length: \x7b\x7d\r\n\x7b\x7d", contents.len(), content_type_header)`
followed by the body bytes. -/
def respond_with_file (contents : List Nat) (mime_type : String) : List Nat :=
  let content_type_header : String :=
    if mime_type = "application/octet-stream" then ""
    else "Content-Type: " ++ mime_type ++ "\r\n\r\n"
  let header : String :=
    "HTTP/1.1 200 OK\r\nContent-Length: " ++ toString contents.length ++ "\r\n"
      ++ content_type_header
  utf8 header ++ contents

/-- main.rs:194-207 `respond_with_error`: the exact bytes written for an
error response; `body.len()` in the source is the UTF-8 byte length. -/
def respond_with_error (code : Nat) (message : String) : List Nat :=
  let body : String := "<h1>" ++ toString code ++ " " ++ message ++ "</h1>"
  let header : String :=
    "HTTP/1.1 " ++ toString code ++ " " ++ message ++ "\r\nContent-Length: "
      ++ toString (utf8 body).length ++ "\r\nContent-Type: text/html\r\n\r\n"
  utf8 header ++ utf8 body

/-- The cache store `HashMap<String, (Vec<u8>, String)>` (main.rs:12),
modelled as an association list with first-match lookup. -/
abbrev Cache := List (String × (List Nat × String))

/-- `HashMap::get`. -/
def cacheGet : Cache → String → Option (List Nat × String)
  | [], _ => none
  | (k, v) :: rest, key => if k = key then some v else cacheGet rest key

/-- `HashMap::insert`: replaces any existing entry for the key. -/
def cacheInsert (c : Cache) (key : String) (v : List Nat × String) : Cache :=
  (key, v) :: c.filter (fun p => p.1 ≠ key)

/-- `HashMap::remove`: drops the entry for the key if present. -/
def cacheRemove (c : Cache) (key : String) : Cache :=
  c.filter (fun p => p.1 ≠ key)

/-- A node of the served filesystem: a regular file with contents, a
directory, or a special file. `exists()` is having a node at all,
`is_file()` is being a `file`. -/
inductive FsNode where
  | file (contents : List Nat)
  | dir
  | special
deriving DecidableEq

/-- The filesystem seen by the handler, as a map from resolved path
strings to nodes. -/
abbrev Fs := List (String × FsNode)

def fsGet : Fs → String → Option FsNode
  | [], _ => none
  | (k, v) :: rest, key => if k = key then some v else fsGet rest key

/-- One observable cache/filesystem access performed by the handler, in
program order. -/
inductive Access where
  | lookup (key : String)
  | insert (key : String)
  | disk (path : String)
deriving DecidableEq

/-- Outcome of one connection: the response bytes written, the cache left
behind, and the trace of cache/filesystem accesses in order. -/
structure HandleResult where
  response : List Nat
  cache : Cache
  trace : List Access
deriving DecidableEq

instance {ε α : Type} [DecidableEq ε] [DecidableEq α] : DecidableEq (Except ε α) := by
  intro a b
  cases a <;> cases b
  case error.error x y =>
    exact if h : x = y then .isTrue (by rw [h]) else .isFalse (by intro hc; cases hc; exact h rfl)
  case ok.ok x y =>
    exact if h : x = y then .isTrue (by rw [h]) else .isFalse (by intro hc; cases hc; exact h rfl)
  case error.ok x y => exact .isFalse (by intro hc; cases hc)
  case ok.error x y => exact .isFalse (by intro hc; cases hc)

/-- Rust `&path[1..]` (main.rs:155): defined when byte offset 1 is a char
boundary, i.e. the string is nonempty and its first character is a single
UTF-8 byte; otherwise the program panics. -/
def sliceFrom1 (s : String) : Option String :=
  match s.data with
  | [] => none
  | c :: rest => if c.toNat < 0x80 then some (String.mk rest) else none

/-- Rust `Path::join` (main.rs:155): an absolute right-hand side replaces
the base, otherwise the two are joined with a separator. -/
def pathJoin (base rel : String) : String :=
  match rel.data with
  | c :: _ => if c = '/' then rel else base ++ "/" ++ rel
  | [] => base ++ "/" ++ rel

/-- Rust `str::split_whitespace`: maximal non-whitespace runs, empties
skipped. -/
def splitWsAux : List Char → List Char → List String
  | [], acc => if acc.isEmpty then [] else [String.mk acc.reverse]
  | c :: cs, acc =>
    if c.isWhitespace then
      if acc.isEmpty then splitWsAux cs [] else String.mk acc.reverse :: splitWsAux cs []
    else splitWsAux cs (c :: acc)

def splitWhitespace (s : String) : List String :=
  splitWsAux s.data []

/-- main.rs:135-136: the method token of the request line (`""` when
absent). -/
def parsedMethod (firstLine : String) : String :=
  (splitWhitespace firstLine).headD ""

/-- main.rs:137: the target token of the request line (`"/"` when
absent). -/
def parsedTarget (firstLine : String) : String :=
  ((splitWhitespace firstLine).drop 1).headD "/"

/-- main.rs:145: the root path is rewritten to the default document. -/
def normalized_path (target : String) : String :=
  if target = "/" then "/index.html" else target

/-- main.rs:141-167 `handle_client` after request-line parsing: non-GET
methods get a 405 before any cache or disk access; `/` is rewritten to
`/index.html`; the cache is consulted; on a miss the leading separator is
stripped (a panic if byte 1 is not a char boundary, modelled as `.error`),
the path is resolved under `base_dir`, and an existing regular file is
read once, inserted into the cache, and served, while anything else gets
a 404 with no insertion. -/
def handle_request (mimeOf : String → String) (fs : Fs) (base_dir : String)
    (method target : String) (cache : Cache) : Except String HandleResult :=
  if method ≠ "GET" then
    .ok ⟨respond_with_error 405 "Method Not Allowed", cache, []⟩
  else
    let path := normalized_path target
    match cacheGet cache path with
    | some (contents, mime_type) =>
        .ok ⟨respond_with_file contents mime_type, cache, [.lookup path]⟩
    | none =>
        match sliceFrom1 path with
        | none => .error "byte index 1 is not a char boundary"
        | some rel =>
            let file_path := pathJoin base_dir rel
            match fsGet fs file_path with
            | some (.file contents) =>
                let mime_type := mimeOf file_path
                .ok ⟨respond_with_file contents mime_type,
                     cacheInsert cache path (contents, mime_type),
                     [.lookup path, .disk file_path, .insert path]⟩
            | _ =>
                .ok ⟨respond_with_error 404 "Not Found", cache,
                     [.lookup path, .disk file_path]⟩

/-- main.rs:110-168 `handle_client` on the first request line. -/
def handle_client (mimeOf : String → String) (fs : Fs) (base_dir : String)
    (firstLine : String) (cache : Cache) : Except String HandleResult :=
  handle_request mimeOf fs base_dir (parsedMethod firstLine) (parsedTarget firstLine) cache

/-! ## The invalidation engine (main.rs:64-107) -/

/-- A filesystem path as Rust `Path` sees it: an optional leading root
plus named components. -/
structure RustPath where
  absolute : Bool
  comps : List String
deriving DecidableEq

/-- `Path::to_string_lossy` for valid-UTF-8 paths. -/
def toStringLossy (p : RustPath) : String :=
  (if p.absolute then "/" else "") ++ String.intercalate "/" p.comps

/-- Rust `Path::strip_prefix`: succeeds when the base matches an initial
run of components (root included), yielding the relative remainder. -/
def stripPfx (base p : RustPath) : Option RustPath :=
  if base.absolute = p.absolute then
    if base.comps.isPrefixOf p.comps then
      some ⟨false, p.comps.drop base.comps.length⟩
    else none
  else if base.absolute then none
  else if base.comps.isEmpty then some p
  else none

/-- Rust `Path::extension`: the part of the last component after its last
dot; none when there is no dot or the only dot is leading. -/
def extensionOf (name : String) : Option String :=
  let ext := name.data.reverse.takeWhile (fun c => c ≠ '.')
  if ext.length = name.data.length then none
  else if ext.length = name.data.length - 1 then none
  else some (String.mk ext.reverse)

/-- main.rs:81-82: only html, css and js files are retained by the
watcher. -/
def has_watched_extension (p : RustPath) : Bool :=
  match p.comps.getLast? with
  | none => false
  | some name =>
      match extensionOf name with
      | some e => e = "html" || e = "css" || e = "js"
      | none => false

/-- main.rs:83: the translation of a retained event path into a cache
key: `format!("/\x7b\x7d", path.strip_prefix(&*base_dir).unwrap_or(&path).to_string_lossy())`. -/
def relative_key (base_dir path : RustPath) : String :=
  "/" ++ toStringLossy ((stripPfx base_dir path).getD path)

/-- The debounce ledger `HashMap<String, Instant>` (main.rs:70), with
instants as natural-number timestamps. -/
abbrev Ledger := List (String × Nat)

def lget : Ledger → String → Option Nat
  | [], _ => none
  | (k, v) :: rest, key => if k = key then some v else lget rest key

def linsert (l : Ledger) (key : String) (t : Nat) : Ledger :=
  (key, t) :: l.filter (fun p => p.1 ≠ key)

/-- main.rs:86-94: the debounce decision for one retained key at time
`now`. Returns whether the event is suppressed, and the updated ledger;
`Instant::duration_since` on monotone timestamps is modelled by truncated
subtraction. The ledger is written only when the event is accepted. -/
def debounce_step (ledger : Ledger) (key : String) (now : Nat) : Bool × Ledger :=
  match lget ledger key with
  | some last_time =>
      if now - last_time < 200 then (true, ledger)
      else (false, linsert ledger key now)
  | none => (false, linsert ledger key now)

/-- main.rs:80-99: processing of one event path of a batch: the extension
filter, the key translation, the debounce, and on acceptance the cache
removal. Returns the ledger, the cache, and the keys invalidated. -/
def watcher_path_step (base_dir : RustPath) (ledger : Ledger) (cache : Cache)
    (path : RustPath) (now : Nat) : Ledger × Cache × List String :=
  if has_watched_extension path then
    let key := relative_key base_dir path
    let s := debounce_step ledger key now
    if s.1 then (ledger, cache, [])
    else (s.2, cacheRemove cache key, [key])
  else (ledger, cache, [])

/-- main.rs:72-106: the engine loop over a sequence of retained event
paths with their arrival times, threading the ledger and the cache and
collecting the invalidated keys in order. -/
def process_events (base_dir : RustPath) (ledger : Ledger) (cache : Cache) :
    List (RustPath × Nat) → Ledger × Cache × List String
  | [] => (ledger, cache, [])
  | (path, now) :: rest =>
      let s := watcher_path_step base_dir ledger cache path now
      let r := process_events base_dir s.1 s.2.1 rest
      (r.1, r.2.1, s.2.2 ++ r.2.2)

/-! ## Startup (main.rs:21-62) -/

/-- main.rs:67-68: the two fallible steps of watch registration; each
failure panics the watcher thread via `expect`. -/
inductive WatcherInit where
  | ok
  | createFail
  | watchFail
deriving DecidableEq

def watcher_registration : WatcherInit → Except String Unit
  | .ok => .ok ()
  | .createFail => .error "Failed to create watcher"
  | .watchFail => .error "Failed to watch the directory"

/-- main.rs:38-50: the accept loop; each connection is handled
independently, and a connection whose handler panics (the `.error` case)
writes no response while the loop keeps going. -/
def serveAll (mimeOf : String → String) (fs : Fs) (base_dir : String) :
    List String → Cache → List (List Nat)
  | [], _ => []
  | line :: rest, cache =>
      match handle_client mimeOf fs base_dir line cache with
      | .ok r => r.response :: serveAll mimeOf fs base_dir rest r.cache
      | .error _ => serveAll mimeOf fs base_dir rest cache

/-- main.rs:34-50: startup spawns the watcher thread with `thread::spawn`
and then enters the accept loop. The spawned thread is detached; under
the default unwind panic strategy, a panic raised by the `expect` calls
in `setup_file_watcher` (main.rs:67-68) terminates only that thread, so
the accept loop runs either way. Returns whether the watcher survived
registration, and the responses served to the given requests. -/
def run_server (w : WatcherInit) (mimeOf : String → String) (fs : Fs)
    (base_dir : String) (requests : List String) : Bool × List (List Nat) :=
  let watcherAlive := match watcher_registration w with
    | .ok _ => true
    | .error _ => false
  (watcherAlive, serveAll mimeOf fs base_dir requests [])

/-! ## Helper lemmas -/

theorem utf8_append (a b : String) : utf8 (a ++ b) = utf8 a ++ utf8 b := by
  simp [utf8, String.data_append]

theorem cacheGet_insert_self (c : Cache) (k : String) (v : List Nat × String) :
    cacheGet (cacheInsert c k v) k = some v := by
  simp [cacheGet, cacheInsert]

theorem lget_linsert_self (l : Ledger) (k : String) (t : Nat) :
    lget (linsert l k t) k = some t := by
  simp [lget, linsert]

theorem hr_get_hit (mimeOf : String → String) (fs : Fs) (base_dir target : String)
    (cache : Cache) (b : List Nat) (m : String)
    (h : cacheGet cache (normalized_path target) = some (b, m)) :
    handle_request mimeOf fs base_dir "GET" target cache =
      .ok ⟨respond_with_file b m, cache, [.lookup (normalized_path target)]⟩ := by
  unfold handle_request
  simp [h]

theorem hr_get_miss_panic (mimeOf : String → String) (fs : Fs) (base_dir target : String)
    (cache : Cache)
    (hmiss : cacheGet cache (normalized_path target) = none)
    (hslice : sliceFrom1 (normalized_path target) = none) :
    handle_request mimeOf fs base_dir "GET" target cache =
      .error "byte index 1 is not a char boundary" := by
  unfold handle_request
  simp [hmiss, hslice]

theorem hr_get_miss_file (mimeOf : String → String) (fs : Fs) (base_dir target : String)
    (cache : Cache) (rel : String) (b : List Nat)
    (hmiss : cacheGet cache (normalized_path target) = none)
    (hslice : sliceFrom1 (normalized_path target) = some rel)
    (hfs : fsGet fs (pathJoin base_dir rel) = some (.file b)) :
    handle_request mimeOf fs base_dir "GET" target cache =
      .ok ⟨respond_with_file b (mimeOf (pathJoin base_dir rel)),
           cacheInsert cache (normalized_path target) (b, mimeOf (pathJoin base_dir rel)),
           [.lookup (normalized_path target), .disk (pathJoin base_dir rel),
            .insert (normalized_path target)]⟩ := by
  unfold handle_request
  simp [hmiss, hslice, hfs]

theorem hr_get_miss_nofile (mimeOf : String → String) (fs : Fs) (base_dir target : String)
    (cache : Cache) (rel : String)
    (hmiss : cacheGet cache (normalized_path target) = none)
    (hslice : sliceFrom1 (normalized_path target) = some rel)
    (hfs : ∀ b, fsGet fs (pathJoin base_dir rel) ≠ some (.file b)) :
    handle_request mimeOf fs base_dir "GET" target cache =
      .ok ⟨respond_with_error 404 "Not Found", cache,
           [.lookup (normalized_path target), .disk (pathJoin base_dir rel)]⟩ := by
  unfold handle_request
  cases hf : fsGet fs (pathJoin base_dir rel) with
  | none => simp [hmiss, hslice, hf]
  | some node =>
    cases node with
    | file b => exact absurd hf (hfs b)
    | dir => simp [hmiss, hslice, hf]
    | special => simp [hmiss, hslice, hf]

theorem hr_get_cases (mimeOf : String → String) (fs : Fs) (base_dir target : String)
    (cache : Cache) :
    (∃ b m, cacheGet cache (normalized_path target) = some (b, m)
        ∧ handle_request mimeOf fs base_dir "GET" target cache
            = .ok ⟨respond_with_file b m, cache, [.lookup (normalized_path target)]⟩)
    ∨ (cacheGet cache (normalized_path target) = none
        ∧ sliceFrom1 (normalized_path target) = none
        ∧ handle_request mimeOf fs base_dir "GET" target cache
            = .error "byte index 1 is not a char boundary")
    ∨ (∃ rel b, cacheGet cache (normalized_path target) = none
        ∧ sliceFrom1 (normalized_path target) = some rel
        ∧ fsGet fs (pathJoin base_dir rel) = some (.file b)
        ∧ handle_request mimeOf fs base_dir "GET" target cache
            = .ok ⟨respond_with_file b (mimeOf (pathJoin base_dir rel)),
                   cacheInsert cache (normalized_path target) (b, mimeOf (pathJoin base_dir rel)),
                   [.lookup (normalized_path target), .disk (pathJoin base_dir rel),
                    .insert (normalized_path target)]⟩)
    ∨ (∃ rel, cacheGet cache (normalized_path target) = none
        ∧ sliceFrom1 (normalized_path target) = some rel
        ∧ (∀ b, fsGet fs (pathJoin base_dir rel) ≠ some (.file b))
        ∧ handle_request mimeOf fs base_dir "GET" target cache
            = .ok ⟨respond_with_error 404 "Not Found", cache,
                   [.lookup (normalized_path target), .disk (pathJoin base_dir rel)]⟩) := by
  cases hc : cacheGet cache (normalized_path target) with
  | some v =>
    obtain ⟨b, m⟩ := v
    exact Or.inl ⟨b, m, rfl, hr_get_hit mimeOf fs base_dir target cache b m hc⟩
  | none =>
    cases hs : sliceFrom1 (normalized_path target) with
    | none =>
      exact Or.inr (Or.inl ⟨rfl, rfl, hr_get_miss_panic mimeOf fs base_dir target cache hc hs⟩)
    | some rel =>
      cases hf : fsGet fs (pathJoin base_dir rel) with
      | none =>
        refine Or.inr (Or.inr (Or.inr ⟨rel, rfl, rfl, ?_, ?_⟩))
        · intro b; simp [hf]
        · exact hr_get_miss_nofile mimeOf fs base_dir target cache rel hc hs (by simp [hf])
      | some node =>
        cases node with
        | file b =>
          exact Or.inr (Or.inr (Or.inl ⟨rel, b, rfl, rfl, hf,
            hr_get_miss_file mimeOf fs base_dir target cache rel b hc hs hf⟩))
        | dir =>
          refine Or.inr (Or.inr (Or.inr ⟨rel, rfl, rfl, ?_, ?_⟩))
          · intro b; simp [hf]
          · exact hr_get_miss_nofile mimeOf fs base_dir target cache rel hc hs (by simp [hf])
        | special =>
          refine Or.inr (Or.inr (Or.inr ⟨rel, rfl, rfl, ?_, ?_⟩))
          · intro b; simp [hf]
          · exact hr_get_miss_nofile mimeOf fs base_dir target cache rel hc hs (by simp [hf])

theorem hr_trace_head (mimeOf : String → String) (fs : Fs) (base_dir target : String)
    (cache : Cache) (r : HandleResult)
    (h : handle_request mimeOf fs base_dir "GET" target cache = .ok r) :
    r.trace.head? = some (.lookup (normalized_path target)) := by
  rcases hr_get_cases mimeOf fs base_dir target cache with
    ⟨b, m, _, he⟩ | ⟨_, _, he⟩ | ⟨rel, b, _, _, _, he⟩ | ⟨rel, _, _, _, he⟩ <;>
    rw [he] at h
  · injection h with h2; subst h2; rfl
  · cases h
  · injection h with h2; subst h2; rfl
  · injection h with h2; subst h2; rfl

theorem process_all_suppressed (base_dir p : RustPath) (t0 : Nat) (ts : List Nat)
    (ledger : Ledger) (cache : Cache)
    (hl : lget ledger (relative_key base_dir p) = some t0)
    (hts : ∀ t ∈ ts, t < t0 + 200) :
    process_events base_dir ledger cache (ts.map (fun t => (p, t))) = (ledger, cache, []) := by
  induction ts with
  | nil => rfl
  | cons t ts ih =>
    have ht : t < t0 + 200 := hts t (List.mem_cons_self _ _)
    have hd : debounce_step ledger (relative_key base_dir p) t = (true, ledger) := by
      unfold debounce_step
      rw [hl]
      show (if t - t0 < 200 then ((true, ledger) : Bool × Ledger)
        else (false, linsert ledger (relative_key base_dir p) t)) = (true, ledger)
      rw [if_pos (by omega)]
    have hstep : watcher_path_step base_dir ledger cache p t = (ledger, cache, []) := by
      simp only [watcher_path_step, hd]
      simp
    simp only [List.map_cons, process_events, hstep]
    rw [ih (fun t' ht' => hts t' (List.mem_cons_of_mem _ ht'))]
    rfl

/-! ## The claims -/

/-- C1: the claim says a watch-registration failure aborts startup so
that no request is ever served. In the code the failure panics only the
detached watcher thread (`thread::spawn` at main.rs:34, `expect` at
main.rs:67-68); the accept loop of the main thread keeps serving. Here a
server whose watcher registration failed still answers a request. -/
theorem C1_watch_failure_still_serves :
    (run_server .createFail (fun _ => "text/html") [] "root"
        ["GET /missing.css HTTP/1.1"]).1 = false
    ∧ (run_server .createFail (fun _ => "text/html") [] "root"
        ["GET /missing.css HTTP/1.1"]).2 = [respond_with_error 404 "Not Found"]
    ∧ (run_server .watchFail (fun _ => "text/html") [] "root"
        ["GET /missing.css HTTP/1.1"]).2 ≠ [] := by
  refine ⟨rfl, by decide, by decide⟩

/-- C2: the claim says that for `application/octet-stream` only the
Content-Type line is dropped and the blank line before the body stays.
In the code (main.rs:176-180) the `\r\n\r\n` terminator lives inside the
Content-Type branch, so the octet-stream response has no blank line at
all: its bytes are the status line, the Content-Length line, and then
immediately the body. For a known type the claimed layout does hold. -/
theorem C2_octet_stream_drops_blank_line :
    respond_with_file (utf8 "abc") "text/plain"
        = utf8 "HTTP/1.1 200 OK\r\nContent-Length: 3\r\nContent-Type: text/plain\r\n\r\n"
          ++ utf8 "abc"
    ∧ respond_with_file (utf8 "abc") "application/octet-stream"
        = utf8 "HTTP/1.1 200 OK\r\nContent-Length: 3\r\n" ++ utf8 "abc"
    ∧ ¬ (utf8 "\r\n\r\n") <:+: respond_with_file (utf8 "abc") "application/octet-stream" := by
  refine ⟨by decide, by decide, by decide⟩

/-- C4: a request whose method is not GET gets the 405 response, with no
cache lookup, no insert, no disk access, and an unchanged cache. -/
theorem C4_non_get_rejected (mimeOf : String → String) (fs : Fs) (base_dir : String)
    (firstLine : String) (cache : Cache)
    (h : parsedMethod firstLine ≠ "GET") :
    handle_client mimeOf fs base_dir firstLine cache =
      .ok ⟨respond_with_error 405 "Method Not Allowed", cache, []⟩ := by
  unfold handle_client handle_request
  simp [h]

theorem C4_non_get_rejected_witness :
    handle_client (fun _ => "text/html") [] "root" "POST /index.html HTTP/1.1" [] =
      .ok ⟨respond_with_error 405 "Method Not Allowed", [], []⟩ :=
  C4_non_get_rejected _ _ _ _ _ (by decide)

/-- C8 as stated is false: when stripping the watch root fails, the raw
path does not become the key unchanged — main.rs:83 still runs it through
`format!("/\x7b\x7d", ...)`, so the key is the raw absolute path with an
extra leading slash. -/
theorem C8_raw_path_counterexample :
    stripPfx ⟨true, ["root"]⟩ ⟨true, ["other", "a.html"]⟩ = none
    ∧ relative_key ⟨true, ["root"]⟩ ⟨true, ["other", "a.html"]⟩ = "//other/a.html"
    ∧ relative_key ⟨true, ["root"]⟩ ⟨true, ["other", "a.html"]⟩
        ≠ toStringLossy ⟨true, ["other", "a.html"]⟩ := by
  refine ⟨by decide, by decide, by decide⟩

/-- C8 (amended): the key is `/` ++ the stripped remainder when stripping
succeeds, and `/` ++ the raw path string when stripping fails; the batch
is not failed either way. -/
theorem C8_key_translation (base p : RustPath) :
    (∀ rem, stripPfx base p = some rem →
        relative_key base p = "/" ++ toStringLossy rem)
    ∧ (stripPfx base p = none → relative_key base p = "/" ++ toStringLossy p) := by
  constructor
  · intro rem h
    unfold relative_key
    rw [h]
    rfl
  · intro h
    unfold relative_key
    rw [h]
    rfl

theorem C8_key_translation_witness :
    relative_key ⟨true, ["root"]⟩ ⟨true, ["root", "a.html"]⟩
      = "/" ++ toStringLossy ⟨false, ["a.html"]⟩ :=
  (C8_key_translation ⟨true, ["root"]⟩ ⟨true, ["root", "a.html"]⟩).1 ⟨false, ["a.html"]⟩
    (by decide)

/-- C5: GET `/` is handled identically to GET `/index.html`: the two
results agree for every cache and filesystem state, the key looked up
first is `/index.html`, and a miss resolves to `index.html` under the
watch root. -/
theorem C5_root_is_index (mimeOf : String → String) (fs : Fs) (base_dir : String)
    (cache : Cache) :
    handle_request mimeOf fs base_dir "GET" "/" cache
        = handle_request mimeOf fs base_dir "GET" "/index.html" cache
    ∧ (∀ r, handle_request mimeOf fs base_dir "GET" "/" cache = .ok r →
        r.trace.head? = some (.lookup "/index.html"))
    ∧ (cacheGet cache "/index.html" = none →
        ∀ r, handle_request mimeOf fs base_dir "GET" "/" cache = .ok r →
          Access.disk (pathJoin base_dir "index.html") ∈ r.trace) := by
  have hnp : normalized_path "/" = "/index.html" := by decide
  have hnp2 : normalized_path "/index.html" = "/index.html" := by decide
  have hsl : sliceFrom1 "/index.html" = some "index.html" := by decide
  refine ⟨?_, ?_, ?_⟩
  · simp only [handle_request, hnp, hnp2]
  · intro r h
    have := hr_trace_head mimeOf fs base_dir "/" cache r h
    rwa [hnp] at this
  · intro hm r h
    rcases hr_get_cases mimeOf fs base_dir "/" cache with
      ⟨b, m, hc, he⟩ | ⟨hc, hs, he⟩ | ⟨rel, b, hc, hs, hf, he⟩ | ⟨rel, hc, hs, hnb, he⟩
    · rw [hnp, hm] at hc; cases hc
    · rw [hnp, hsl] at hs; cases hs
    · rw [hnp, hsl] at hs
      obtain rfl : rel = "index.html" := (Option.some.inj hs).symm
      rw [he] at h
      injection h with h2
      subst h2
      simp
    · rw [hnp, hsl] at hs
      obtain rfl : rel = "index.html" := (Option.some.inj hs).symm
      rw [he] at h
      injection h with h2
      subst h2
      simp

theorem C5_root_is_index_witness :
    Access.disk (pathJoin "root" "index.html")
      ∈ (HandleResult.mk (respond_with_error 404 "Not Found") []
          [Access.lookup "/index.html", Access.disk (pathJoin "root" "index.html")]).trace :=
  (C5_root_is_index (fun _ => "text/html") [] "root" []).2.2 (by decide)
    ⟨respond_with_error 404 "Not Found", [],
     [Access.lookup "/index.html", Access.disk (pathJoin "root" "index.html")]⟩ (by decide)

/-- C6: on a cache miss, a missing path or a non-regular file yields the
404 response and the cache is unchanged; a regular file is read from disk
once, its bytes are inserted under the key together with the classified
type, and the response is built from exactly those bytes. -/
theorem C6_miss_404_or_populate (mimeOf : String → String) (fs : Fs)
    (base_dir target rel : String) (cache : Cache)
    (hmiss : cacheGet cache (normalized_path target) = none)
    (hslice : sliceFrom1 (normalized_path target) = some rel) :
    (fsGet fs (pathJoin base_dir rel) = none →
        handle_request mimeOf fs base_dir "GET" target cache
          = .ok ⟨respond_with_error 404 "Not Found", cache,
                 [.lookup (normalized_path target), .disk (pathJoin base_dir rel)]⟩)
    ∧ (∀ node, fsGet fs (pathJoin base_dir rel) = some node →
        (∀ b, node ≠ FsNode.file b) →
        handle_request mimeOf fs base_dir "GET" target cache
          = .ok ⟨respond_with_error 404 "Not Found", cache,
                 [.lookup (normalized_path target), .disk (pathJoin base_dir rel)]⟩)
    ∧ (∀ b, fsGet fs (pathJoin base_dir rel) = some (.file b) →
        handle_request mimeOf fs base_dir "GET" target cache
          = .ok ⟨respond_with_file b (mimeOf (pathJoin base_dir rel)),
                 cacheInsert cache (normalized_path target) (b, mimeOf (pathJoin base_dir rel)),
                 [.lookup (normalized_path target), .disk (pathJoin base_dir rel),
                  .insert (normalized_path target)]⟩
        ∧ cacheGet (cacheInsert cache (normalized_path target)
              (b, mimeOf (pathJoin base_dir rel))) (normalized_path target)
            = some (b, mimeOf (pathJoin base_dir rel))) := by
  refine ⟨?_, ?_, ?_⟩
  · intro hf
    exact hr_get_miss_nofile mimeOf fs base_dir target cache rel hmiss hslice (by simp [hf])
  · intro node hf hnb
    refine hr_get_miss_nofile mimeOf fs base_dir target cache rel hmiss hslice ?_
    intro b heq
    rw [hf] at heq
    exact hnb b (Option.some.inj heq)
  · intro b hf
    exact ⟨hr_get_miss_file mimeOf fs base_dir target cache rel b hmiss hslice hf,
           cacheGet_insert_self cache (normalized_path target) (b, mimeOf (pathJoin base_dir rel))⟩

theorem C6_miss_404_or_populate_witness :
    handle_request (fun _ => "text/css") [] "root" "GET" "/missing.css" []
      = .ok ⟨respond_with_error 404 "Not Found", [],
             [.lookup (normalized_path "/missing.css"), .disk (pathJoin "root" "missing.css")]⟩ :=
  (C6_miss_404_or_populate (fun _ => "text/css") [] "root" "/missing.css" "missing.css" []
    (by decide) (by decide)).1 (by decide)

/-- C7: every GET attempts the cache lookup before any disk access; a hit
is served from the store without touching the disk or the cache; after a
first miss populates the store, a second identical request with no
intervening invalidation is a pure hit whose bytes are the ones read from
disk the first time. -/
theorem C7_lookup_precedes_disk (mimeOf : String → String) (fs : Fs)
    (base_dir target : String) (cache : Cache) :
    (∀ r, handle_request mimeOf fs base_dir "GET" target cache = .ok r →
        r.trace.head? = some (.lookup (normalized_path target)))
    ∧ (∀ b m, cacheGet cache (normalized_path target) = some (b, m) →
        handle_request mimeOf fs base_dir "GET" target cache
          = .ok ⟨respond_with_file b m, cache, [.lookup (normalized_path target)]⟩)
    ∧ (∀ rel b, cacheGet cache (normalized_path target) = none →
        sliceFrom1 (normalized_path target) = some rel →
        fsGet fs (pathJoin base_dir rel) = some (.file b) →
        ∀ r1, handle_request mimeOf fs base_dir "GET" target cache = .ok r1 →
          handle_request mimeOf fs base_dir "GET" target r1.cache
            = .ok ⟨respond_with_file b (mimeOf (pathJoin base_dir rel)), r1.cache,
                   [.lookup (normalized_path target)]⟩) := by
  refine ⟨hr_trace_head mimeOf fs base_dir target cache, ?_, ?_⟩
  · exact fun b m hc => hr_get_hit mimeOf fs base_dir target cache b m hc
  · intro rel b hc hs hf r1 h1
    rw [hr_get_miss_file mimeOf fs base_dir target cache rel b hc hs hf] at h1
    injection h1 with h2
    subst h2
    exact hr_get_hit mimeOf fs base_dir target _ b (mimeOf (pathJoin base_dir rel))
      (cacheGet_insert_self cache (normalized_path target) (b, mimeOf (pathJoin base_dir rel)))

theorem C7_lookup_precedes_disk_witness :
    handle_request (fun _ => "text/html") [("root/index.html", FsNode.file [104])] "root"
        "GET" "/" (cacheInsert [] (normalized_path "/") ([104], "text/html"))
      = .ok ⟨respond_with_file [104] "text/html",
             cacheInsert [] (normalized_path "/") ([104], "text/html"),
             [Access.lookup (normalized_path "/")]⟩ :=
  (C7_lookup_precedes_disk (fun _ => "text/html")
      [("root/index.html", FsNode.file [104])] "root" "/" []).2.2
    "index.html" [104] (by decide) (by decide) (by decide)
    ⟨respond_with_file [104] "text/html",
     cacheInsert [] (normalized_path "/") ([104], "text/html"),
     [Access.lookup (normalized_path "/"), Access.disk (pathJoin "root" "index.html"),
      Access.insert (normalized_path "/")]⟩ (by decide)

/-- C9: every error response is exactly the status line, the
Content-Length line carrying the body byte length, the
`Content-Type: text/html` line, a blank line and the `<h1>` body; the
handler only ever produces the 405 and 404 error responses; and GET
`/missing.css` against an empty root gives the 404 response whose body is
`<h1>404 Not Found</h1>`. -/
theorem C9_error_format (mimeOf : String → String) (fs : Fs) (base_dir : String) :
    (∀ code message, respond_with_error code message
        = utf8 ("HTTP/1.1 " ++ toString code ++ " " ++ message)
          ++ utf8 "\r\nContent-Length: "
          ++ utf8 (toString (utf8 ("<h1>" ++ toString code ++ " " ++ message ++ "</h1>")).length)
          ++ utf8 "\r\nContent-Type: text/html\r\n\r\n"
          ++ utf8 ("<h1>" ++ toString code ++ " " ++ message ++ "</h1>"))
    ∧ (∀ method target cache r,
        handle_request mimeOf fs base_dir method target cache = .ok r →
          (∃ b m, r.response = respond_with_file b m)
          ∨ r.response = respond_with_error 405 "Method Not Allowed"
          ∨ r.response = respond_with_error 404 "Not Found")
    ∧ handle_client (fun _ => "text/css") [] "root" "GET /missing.css HTTP/1.1" []
        = .ok ⟨respond_with_error 404 "Not Found", [],
               [.lookup "/missing.css", .disk "root/missing.css"]⟩
    ∧ respond_with_error 404 "Not Found"
        = utf8 "HTTP/1.1 404 Not Found\r\nContent-Length: 22\r\nContent-Type: text/html\r\n\r\n<h1>404 Not Found</h1>" := by
  refine ⟨?_, ?_, by decide, by decide⟩
  · intro code message
    simp only [respond_with_error, utf8_append, List.append_assoc]
  · intro method target cache r h
    by_cases hm : method = "GET"
    · subst hm
      rcases hr_get_cases mimeOf fs base_dir target cache with
        ⟨b, m, hc, he⟩ | ⟨hc, hs, he⟩ | ⟨rel, b, hc, hs, hf, he⟩ | ⟨rel, hc, hs, hnb, he⟩ <;>
        rw [he] at h
      · injection h with h2; subst h2; exact Or.inl ⟨b, m, rfl⟩
      · cases h
      · injection h with h2; subst h2; exact Or.inl ⟨b, _, rfl⟩
      · injection h with h2; subst h2; exact Or.inr (Or.inr rfl)
    · unfold handle_request at h
      rw [if_pos hm] at h
      injection h with h2
      subst h2
      exact Or.inr (Or.inl rfl)

theorem C9_error_format_witness :
    (∃ b m, (HandleResult.mk (respond_with_error 405 "Method Not Allowed") [] []).response
        = respond_with_file b m)
    ∨ (HandleResult.mk (respond_with_error 405 "Method Not Allowed") [] []).response
        = respond_with_error 405 "Method Not Allowed"
    ∨ (HandleResult.mk (respond_with_error 405 "Method Not Allowed") [] []).response
        = respond_with_error 404 "Not Found" :=
  (C9_error_format (fun _ => "text/html") [] "root").2.1 "POST" "/index.html" []
    ⟨respond_with_error 405 "Method Not Allowed", [], []⟩ (by decide)

/-- C10: a GET whose target starts with a single-byte (ASCII) character
always has a valid `&path[1..]` slice and yields a response, while for
the request line `GET é HTTP/1.1` the slice at byte offset 1 falls inside
the two-byte first character, so the handler panics and no response is
produced for that connection. -/
theorem C10_slice_boundary (mimeOf : String → String) (fs : Fs)
    (base_dir target : String) (cache : Cache) :
    (∀ c cs, target.data = c :: cs → c.toNat < 128 →
        (sliceFrom1 (normalized_path target)).isSome = true
        ∧ ∃ r, handle_request mimeOf fs base_dir "GET" target cache = .ok r)
    ∧ handle_client (fun _ => "text/html") [] "/root" "GET é HTTP/1.1" []
        = .error "byte index 1 is not a char boundary" := by
  refine ⟨?_, by decide⟩
  intro c cs hdata hc
  have hs : (sliceFrom1 (normalized_path target)).isSome = true := by
    by_cases ht : target = "/"
    · subst ht; decide
    · have hn : normalized_path target = target := by simp [normalized_path, ht]
      rw [hn]
      unfold sliceFrom1
      rw [hdata]
      show (if c.toNat < 0x80 then some (String.mk cs) else none).isSome = true
      rw [if_pos hc]
      rfl
  refine ⟨hs, ?_⟩
  rcases hr_get_cases mimeOf fs base_dir target cache with
    ⟨b, m, hc2, he⟩ | ⟨hc2, hs0, he⟩ | ⟨rel, b, hc2, hs0, hf, he⟩ | ⟨rel, hc2, hs0, hnb, he⟩
  · exact ⟨_, he⟩
  · rw [hs0] at hs; simp at hs
  · exact ⟨_, he⟩
  · exact ⟨_, he⟩

theorem C10_slice_boundary_witness :
    (sliceFrom1 (normalized_path "/abc")).isSome = true
    ∧ ∃ r, handle_request (fun _ => "text/html") [] "root" "GET" "/abc" [] = .ok r :=
  (C10_slice_boundary (fun _ => "text/html") [] "root" "/abc" []).1 '/' ['a', 'b', 'c']
    (by decide) (by decide)

/-- C3: the debounce ledger: an event is suppressed exactly when the
ledger holds a timestamp for its key less than 200 units before the
event, the ledger entry is rewritten only by accepted events, and a
burst of events on one watched path whose times all lie within the 200
unit window of the first event (the key having no prior ledger entry)
removes the cache entry for that key exactly once. -/
theorem C3_debounce_once (base_dir : RustPath) :
    (∀ ledger key now,
        ((debounce_step ledger key now).1 = true
            ↔ ∃ t, lget ledger key = some t ∧ now - t < 200)
        ∧ ((debounce_step ledger key now).1 = true
            → (debounce_step ledger key now).2 = ledger)
        ∧ ((debounce_step ledger key now).1 = false
            → (debounce_step ledger key now).2 = linsert ledger key now))
    ∧ (∀ p t0 ts ledger cache,
        has_watched_extension p = true →
        lget ledger (relative_key base_dir p) = none →
        (∀ t ∈ ts, t < t0 + 200) →
        (process_events base_dir ledger cache ((t0 :: ts).map (fun t => (p, t)))).2.2
            = [relative_key base_dir p]
        ∧ (process_events base_dir ledger cache ((t0 :: ts).map (fun t => (p, t)))).2.1
            = cacheRemove cache (relative_key base_dir p)) := by
  constructor
  · intro ledger key now
    refine ⟨?_, ?_, ?_⟩
    · unfold debounce_step
      cases hl : lget ledger key with
      | none => simp
      | some t =>
        by_cases h2 : now - t < 200
        · simp [h2]
        · simp [h2]
    · unfold debounce_step
      cases hl : lget ledger key with
      | none => simp
      | some t =>
        by_cases h2 : now - t < 200
        · simp [h2]
        · simp [h2]
    · unfold debounce_step
      cases hl : lget ledger key with
      | none => simp
      | some t =>
        by_cases h2 : now - t < 200
        · simp [h2]
        · simp [h2]
  · intro p t0 ts ledger cache hext hnone hts
    have hd0 : debounce_step ledger (relative_key base_dir p) t0
        = (false, linsert ledger (relative_key base_dir p) t0) := by
      unfold debounce_step
      rw [hnone]
    have hstep : watcher_path_step base_dir ledger cache p t0
        = (linsert ledger (relative_key base_dir p) t0,
           cacheRemove cache (relative_key base_dir p), [relative_key base_dir p]) := by
      simp only [watcher_path_step, hext, hd0]
      simp
    have hrest := process_all_suppressed base_dir p t0 ts
      (linsert ledger (relative_key base_dir p) t0)
      (cacheRemove cache (relative_key base_dir p))
      (lget_linsert_self ledger (relative_key base_dir p) t0) hts
    constructor
    · simp [List.map_cons, process_events, hstep, hrest]
    · simp [List.map_cons, process_events, hstep, hrest]

theorem C3_debounce_once_witness :
    (process_events ⟨true, ["root"]⟩ [] [("/a.html", ([104], "text/html"))]
        ((1000 :: [1050, 1150]).map (fun t => ((⟨true, ["root", "a.html"]⟩ : RustPath), t)))).2.2
      = [relative_key ⟨true, ["root"]⟩ ⟨true, ["root", "a.html"]⟩]
    ∧ (process_events ⟨true, ["root"]⟩ [] [("/a.html", ([104], "text/html"))]
        ((1000 :: [1050, 1150]).map (fun t => ((⟨true, ["root", "a.html"]⟩ : RustPath), t)))).2.1
      = cacheRemove [("/a.html", ([104], "text/html"))]
          (relative_key ⟨true, ["root"]⟩ ⟨true, ["root", "a.html"]⟩) :=
  (C3_debounce_once ⟨true, ["root"]⟩).2 ⟨true, ["root", "a.html"]⟩ 1000 [1050, 1150]
    [] [("/a.html", ([104], "text/html"))] (by decide) (by decide) (by decide)

end RsHttps
